import Mathlib

set_option maxHeartbeats 1000000

/-!
Verification development for the gallery-dl twitter web UI sync engine.

The embedding below follows `src/app/utils.py` (filename tagging and
timestamp resolution) and `src/app/services.py`
(`process_and_cache_user_posts`), over an explicit model of the author
directory (a list of files with their relevant parsed contents) and of the
persistent store (users and posts).  Python strings are modelled by Lean
`String` (lists of characters); `\d` in the regular expressions and
`str.lower` are modelled over ASCII, matching the filenames and metadata
the application processes.  File reads never fail in the model except where
a file is unparseable (`jsonData = none`) or its mtime is unavailable
(`mtime = none`); directory listing of an existing directory always
succeeds.
-/

namespace GalleryWebui

/-- Numeric value of a list of decimal digit characters, as Python `int`. -/
def digitsToNat (cs : List Char) : Nat :=
  cs.foldl (fun n c => n * 10 + (c.toNat - 48)) 0

/-- `app/utils.py`, `extract_tweet_id_from_filename`:
`re.match(r'^(\d+)', filename)` returns the maximal leading digit run. -/
def extract_tweet_id_from_filename (filename : String) : Option String :=
  let ds := filename.data.takeWhile Char.isDigit
  if ds.isEmpty then none else some (String.mk ds)

/-- Split a character list at every occurrence of `sep`
(Python `str.split(sep)` for a one-character separator). -/
def splitChar (sep : Char) : List Char → List (List Char)
  | [] => [[]]
  | c :: rest =>
    if c = sep then [] :: splitChar sep rest
    else
      match splitChar sep rest with
      | h :: t => (c :: h) :: t
      | [] => [[c]]

/-- Python `str.endswith(suf)`. -/
def endswith (s suf : String) : Bool :=
  suf.data.isSuffixOf s.data

/-- The whitespace characters stripped by Python `str.strip()` (ASCII part). -/
def isPySpace (c : Char) : Bool :=
  c = ' ' || c = '\t' || c = '\n' || c = '\r' || c = '\x0b' || c = '\x0c'

/-- Python `str.strip()`. -/
def pyStrip (s : String) : String :=
  String.mk (((s.data.dropWhile isPySpace).reverse.dropWhile isPySpace).reverse)

/-- Python `"".join(l)`. -/
def joinStrings (l : List String) : String :=
  String.mk (l.foldr (fun s acc => s.data ++ acc) [])

/-- Python `str.lower()`, modelled on ASCII letters. -/
def lowerChar (c : Char) : Char :=
  if 65 ≤ c.toNat && c.toNat ≤ 90 then Char.ofNat (c.toNat + 32) else c

/-- Python `str.lower()` on a whole string. -/
def lowerStr (s : String) : String :=
  String.mk (s.data.map lowerChar)

/-- A wall-clock timestamp as produced by `datetime.strptime`. -/
structure DateTime where
  year : Nat
  month : Nat
  day : Nat
  hour : Nat
  minute : Nat
  second : Nat
deriving DecidableEq, Repr

def isLeapYear (y : Nat) : Bool :=
  (y % 4 = 0 && y % 100 ≠ 0) || y % 400 = 0

def daysInMonth (y m : Nat) : Nat :=
  if m = 2 then (if isLeapYear y then 29 else 28)
  else if m = 4 || m = 6 || m = 9 || m = 11 then 30
  else 31

/-- A numeric field of at most `maxLen` digits (as matched by the
`_strptime` regular expressions for `%m`, `%d`, `%H`, `%M`, `%S`, `%Y`). -/
def decField (cs : List Char) (maxLen : Nat) : Option Nat :=
  if cs ≠ [] && cs.length ≤ maxLen && cs.all Char.isDigit then
    some (digitsToNat cs)
  else none

/-- `datetime.strptime(s, "%Y-%m-%d %H:%M:%S")`: four-digit year, one- or
two-digit remaining fields, with the range checks performed by `_strptime`
and by the `datetime` constructor (which also rejects leap seconds and out
of range days, raising the `ValueError` the callers catch).  The single
ASCII space separator is modelled. -/
def strptimeYmdHms (s : String) : Option DateTime :=
  match splitChar ' ' s.data with
  | [dpart, tpart] =>
    match splitChar '-' dpart, splitChar ':' tpart with
    | [ys, ms, ds], [hs, ns, ss] =>
      match decField ys 4, decField ms 2, decField ds 2,
            decField hs 2, decField ns 2, decField ss 2 with
      | some y, some mo, some d, some hh, some mi, some se =>
        if ys.length = 4 && 1 ≤ y && 1 ≤ mo && mo ≤ 12 && 1 ≤ d &&
           d ≤ daysInMonth y mo && hh ≤ 23 && mi ≤ 59 && se ≤ 59 then
          some ⟨y, mo, d, hh, mi, se⟩
        else none
      | _, _, _, _, _, _ => none
    | _, _ => none
  | _ => none

/-- `os.path.splitext(fn)[0]`: everything before the last dot, unless every
character before that dot is itself a dot (leading dots never start an
extension). -/
def splitextStem (fn : String) : List Char :=
  match fn.data.reverse.dropWhile (· != '.') with
  | '.' :: pre => if pre.any (· != '.') then pre.reverse else fn.data
  | _ => fn.data

/-- `re.search(r'(\d{9,11})', s)`: the leftmost position at which at least
nine consecutive digits start, matched greedily up to eleven digits. -/
def firstDigitRun : List Char → Option (List Char)
  | [] => none
  | c :: rest =>
    let run := (c :: rest).takeWhile Char.isDigit
    if 9 ≤ run.length then some (run.take 11) else firstDigitRun rest

/-- A resolved post timestamp.  `datetime.fromtimestamp` renders epoch
seconds in the host local timezone, which the model keeps abstract, so the
numeric sources remember the raw seconds value. -/
inductive TS where
  | civil (d : DateTime)
  | epochSec (n : Nat)
  | mtimeSec (n : Nat)
deriving DecidableEq, Repr

-- quick sanity checks of the parsing layer (kept as `example`s)
example : extract_tweet_id_from_filename "111_20200101.json" = some "111" := by decide
example : extract_tweet_id_from_filename "readme.md" = none := by decide
example : strptimeYmdHms "2020-01-01 10:00:00" = some ⟨2020, 1, 1, 10, 0, 0⟩ := by decide
example : strptimeYmdHms "2020-02-30 10:00:00" = none := by decide
example : strptimeYmdHms "not a date" = none := by decide
example : splitextStem "111_1600000000.jpg" = "111_1600000000".data := by decide
example : firstDigitRun "0000000001".data = some "0000000001".data := by decide
example : digitsToNat "0000000001".data = 1 := by decide

/-! ## Data model: JSON records, directory files, persistent store -/

/-- The author sub-record (`data['author']` / `data['user']`) of a
gallery-dl metadata file.  Each field is `none` when the key is absent from
the record and `some v` when the key is present with value `v`; the inner
option of `some none` models a present key whose JSON value is `null`
(Python `None`).  Only the keys the application reads are modelled. -/
structure UserJson where
  name : Option (Option String) := none
  nick : Option (Option String) := none
  location : Option (Option String) := none
  description : Option (Option String) := none
  verified : Option (Option Bool) := none
  profile_image : Option (Option String) := none
  favourites_count : Option (Option Int) := none
  followers_count : Option (Option Int) := none
  friends_count : Option (Option Int) := none
  listed_count : Option (Option Int) := none
  media_count : Option (Option Int) := none
  statuses_count : Option (Option Int) := none
deriving DecidableEq, Repr

/-- A parsed post metadata file (`json.load` result).  `date` is `none`
when the `date` key is absent, `null` or not a string.  The text fields use
`some none` for a present key whose value is `null`.  The engagement
counters collapse an absent key and a `null` value to `none`, because
`json_data.get(key)` returns Python `None` for both and the value is stored
unchanged.  `author`/`user` are `none` when the key is absent or `null`.
`dump` stands for the `json.dumps(json_data)` serialization. -/
structure PostJson where
  date : Option String := none
  full_text : Option (Option String) := none
  content : Option (Option String) := none
  text : Option (Option String) := none
  retweet_count : Option Int := none
  reply_count : Option Int := none
  favorite_count : Option Int := none
  bookmark_count : Option Int := none
  author : Option UserJson := none
  user : Option UserJson := none
  dump : String := ""
deriving DecidableEq, Repr

/-- One entry of the author directory listing.  `isRegular` is
`os.path.isfile`; `jsonData` is the result of `json.load` on the file
(`none` when opening or parsing would fail, e.g. for non-JSON files);
`lines` is the `readlines()` result for text files; `mtime` is
`os.path.getmtime` in epoch seconds (`none` when it raises `OSError`). -/
structure FSFile where
  name : String
  isRegular : Bool := true
  jsonData : Option PostJson := none
  lines : List String := []
  mtime : Option Nat := none
deriving DecidableEq, Repr

/-- A filesystem root: one named directory of files per author handle. -/
abbrev FS := List (String × List FSFile)

/-- `os.path.isdir` plus `os.listdir` for one author. -/
def dirOf (fs : FS) (username : String) : Option (List FSFile) :=
  (fs.find? (fun e => e.1 == username)).map (·.2)

/-- Open a directory entry by name. -/
def findFile (dir : List FSFile) (n : String) : Option FSFile :=
  dir.find? (fun f => f.name == n)

/-- A persisted `User` row (`app/models.py`). -/
structure StoreUser where
  id : Nat
  username : String
  name : Option String := none
  nick : Option String := none
  location : Option String := none
  description : Option String := none
  verified : Option Bool := none
  profile_image_url : Option String := none
  favourites_count : Option Int := none
  followers_count : Option Int := none
  friends_count : Option Int := none
  listed_count : Option Int := none
  media_count : Option Int := none
  statuses_count : Option Int := none
deriving DecidableEq, Repr

/-- A persisted `Post` row (`app/models.py`); `media_files` stands for the
list serialized into `media_files_json`. -/
structure StorePost where
  id : String
  user_id : Nat
  timestamp : Option TS := none
  text_content : Option String := none
  media_files : List String := []
  retweet_count : Option Int := none
  reply_count : Option Int := none
  favorite_count : Option Int := none
  bookmark_count : Option Int := none
  raw_json_data : Option String := none
deriving DecidableEq, Repr

/-- The persistent store: all users and posts, plus the autoincrement
counter supplying the next user id. -/
structure Store where
  users : List StoreUser
  posts : List StorePost
  nextUserId : Nat
deriving DecidableEq, Repr

/-! ## Timestamp resolver (`app/utils.py`, `parse_timestamp`) -/

/-- Priority 1: the `date` field of the first `.json` file of the group,
parsed as `YYYY-MM-DD HH:MM:SS`.  An unreadable or unparseable file, a
missing, `null`, empty or malformed `date` all yield `none`. -/
def tsFromJson (dir : List FSFile) (files : List String) : Option DateTime :=
  match files.find? (fun f => endswith f ".json") with
  | none => none
  | some n =>
    match (findFile dir n).bind (·.jsonData) with
    | none => none
    | some j =>
      match j.date with
      | none => none
      | some ds => if ds == "" then none else strptimeYmdHms ds

/-- Priority 2: the stripped first line (`readline().strip()`) of the first
`.txt` file of the group, parsed as `YYYY-MM-DD HH:MM:SS`. -/
def tsFromTxt (dir : List FSFile) (files : List String) : Option DateTime :=
  match files.find? (fun f => endswith f ".txt") with
  | none => none
  | some n =>
    match findFile dir n with
    | none => none
    | some f => strptimeYmdHms (pyStrip ((f.lines.headD "")))

/-- Priority 3: scan each filename (extension stripped) for a 9–11 digit
run; the first file whose run value lies within
`[946684800, 2524608000)` (2000-01-01 to 2050-01-01 UTC) wins. -/
def tsFromEpoch (files : List String) : Option Nat :=
  files.findSome? fun fn =>
    match firstDigitRun (splitextStem fn) with
    | none => none
    | some ds =>
      let v := digitsToNat ds
      if 946684800 ≤ v && v < 2524608000 then some v else none

/-- Priority 4: the filesystem modification time of the first file of the
group. -/
def tsFromMtime (dir : List FSFile) (files : List String) : Option Nat :=
  match files with
  | [] => none
  | f :: _ => (findFile dir f).bind (·.mtime)

/-- `app/utils.py`, `parse_timestamp`: the strict ordered fallback chain
over the four sources; the first source yielding a value wins. -/
def parse_timestamp (dir : List FSFile) (files : List String) : Option TS :=
  match tsFromJson dir files with
  | some d => some (.civil d)
  | none =>
    match tsFromTxt dir files with
    | some d => some (.civil d)
    | none =>
      match tsFromEpoch files with
      | some v => some (.epochSec v)
      | none => (tsFromMtime dir files).map .mtimeSec

/-! ## File grouper (`services.py` lines 98–109) -/

/-- Append `v` to the entry of key `k`, creating the entry at the end when
the key is new — `defaultdict(list)` with Python dicts preserving key
insertion order. -/
def assocAppend (k v : String) : List (String × List String) → List (String × List String)
  | [] => [(k, [v])]
  | (k₁, vs) :: rest =>
    if k₁ == k then (k₁, vs ++ [v]) :: rest else (k₁, vs) :: assocAppend k v rest

def groupFilesAux (acc : List (String × List String)) : List FSFile → List (String × List String)
  | [] => acc
  | f :: rest =>
    groupFilesAux
      (if f.isRegular then
        match extract_tweet_id_from_filename f.name with
        | some tid => assocAppend tid f.name acc
        | none => acc
      else acc) rest

/-- `files_by_tweet_id`: regular files keyed by their extracted tweet id,
in listing order. -/
def groupFiles (dir : List FSFile) : List (String × List String) :=
  groupFilesAux [] dir

/-- The file list recorded for a tweet id (empty when the id has no group). -/
def groupLookup (gs : List (String × List String)) (tid : String) : List String :=
  match gs.find? (fun g => g.1 == tid) with
  | some g => g.2
  | none => []

/-! ## Author profile aggregation (`services.py` lines 36–82) -/

/-- Python truthiness of an optional string (`None` and `""` are falsy). -/
def pyTruthy : Option String → Bool
  | some s => s != ""
  | none => false

/-- Python `a or b` on two optional strings. -/
def pyOr (a b : Option String) : Option String :=
  if pyTruthy a then a else b

/-- Truthiness of the author sub-record as a Python dict: at least one
(modelled) key present. -/
def UserJson.truthy (u : UserJson) : Bool :=
  u.name.isSome || u.nick.isSome || u.location.isSome || u.description.isSome ||
  u.verified.isSome || u.profile_image.isSome || u.favourites_count.isSome ||
  u.followers_count.isSome || u.friends_count.isSome || u.listed_count.isSome ||
  u.media_count.isSome || u.statuses_count.isSome

/-- `data.get('author') or data.get('user')` (an absent, `null` or empty
`author` dict is falsy and yields the `user` entry). -/
def pickUserInfo (d : PostJson) : Option UserJson :=
  match d.author with
  | some a => if a.truthy then some a else d.user
  | none => d.user

/-- The match condition of `services.py` line 53: the sub-record's `nick`
or `name` equals the handle, or the `nick` of `data['author']` /
`data['user']` does. -/
def userMatch (ui : UserJson) (d : PostJson) (username : String) : Bool :=
  (ui.nick.join == some username) || (ui.name.join == some username) ||
  (match d.author with
   | some a => a.nick.join == some username
   | none => false) ||
  (match d.user with
   | some a => a.nick.join == some username
   | none => false)

/-- Strict lexicographic order on character lists (Python `str` `<`). -/
def charListLt : List Char → List Char → Bool
  | [], [] => false
  | [], _ :: _ => true
  | _ :: _, [] => false
  | a :: as, b :: bs => if a < b then true else if b < a then false else charListLt as bs

def insertDescBy (x : String) : List String → List String
  | [] => [x]
  | y :: ys => if charListLt y.data x.data then x :: y :: ys else y :: insertDescBy x ys

/-- `sorted(l, reverse=True)` on strings. -/
def sortStringsDesc (l : List String) : List String :=
  l.foldr insertDescBy []

def selectUserLoop (dir : List FSFile) (username : String) : List String → Option UserJson
  | [] => none
  | n :: rest =>
    match (findFile dir n).bind (·.jsonData) with
    | none => selectUserLoop dir username rest
    | some d =>
      match pickUserInfo d with
      | some ui =>
        if ui.truthy && userMatch ui d username then some ui
        else selectUserLoop dir username rest
      | none => selectUserLoop dir username rest

/-- `services.py` lines 36–58: walk all `.json` entries of the listing in
descending filename order and return the first author sub-record matching
the handle; an unreadable or unparseable file is skipped.  When nothing
matches the result is the empty record `{}`. -/
def selectUserJson (dir : List FSFile) (username : String) : UserJson :=
  (selectUserLoop dir username
      (sortStringsDesc ((dir.map (·.name)).filter (fun n => endswith n ".json")))).getD {}

/-- `services.py` lines 61–72: each profile column is assigned
`user_json_data.get(key, current)` — the source's value when the key is
present (even when that value is `null`), the current value otherwise. -/
def applyUserJson (j : UserJson) (u : StoreUser) : StoreUser :=
  { u with
    name := j.name.getD u.name
    nick := j.nick.getD u.nick
    location := j.location.getD u.location
    description := j.description.getD u.description
    verified := j.verified.getD u.verified
    profile_image_url := j.profile_image.getD u.profile_image_url
    favourites_count := j.favourites_count.getD u.favourites_count
    followers_count := j.followers_count.getD u.followers_count
    friends_count := j.friends_count.getD u.friends_count
    listed_count := j.listed_count.getD u.listed_count
    media_count := j.media_count.getD u.media_count
    statuses_count := j.statuses_count.getD u.statuses_count }

/-! ## Post extractor (`services.py` lines 115–192) -/

/-- `services.py` lines 146–147: the text body from the metadata record —
assigned only when one of the three keys is present, and then equal to the
Python chain `get('full_text') or get('content') or get('text')` (the first
truthy value, or the last `get` verbatim when none is truthy). -/
def jsonText (j : PostJson) : Option String :=
  if j.full_text.isSome || j.content.isSome || j.text.isSome then
    pyOr j.full_text.join (pyOr j.content.join j.text.join)
  else none

/-- `services.py` lines 154–171: the caption file step.  When the file has
lines and its stripped first line parses as a timestamp, a falsy current
body is replaced by the remaining lines joined and stripped; otherwise a
falsy current body is replaced by all lines joined and stripped. -/
def applyCaption (lines : List String) (cur : Option String) : Option String :=
  match lines with
  | [] => cur
  | first :: rest =>
    match strptimeYmdHms (pyStrip first) with
    | some _ => if pyTruthy cur then cur else some (pyStrip (joinStrings rest))
    | none => if pyTruthy cur then cur else some (pyStrip (joinStrings (first :: rest)))

/-- The recognized media extension tuple (`src/app.py` lines 61–63:
`IMAGE_EXTENSIONS + VIDEO_EXTENSIONS`). -/
def MEDIA_EXTENSIONS : List String :=
  [".jpg", ".jpeg", ".png", ".gif", ".webp", ".mp4"]

/-- `filename.lower().endswith(MEDIA_EXTENSIONS)`. -/
def hasMediaExt (fn : String) : Bool :=
  MEDIA_EXTENSIONS.any (fun e => endswith (lowerStr fn) e)

/-- `os.path.join(username, filename).replace('\x5c', '/')`: the
author-prefixed, forward-slash separated relative path. -/
def mediaPath (username fn : String) : String :=
  username ++ "/" ++ fn

/-- The media path list of a post (`services.py` lines 173–175). -/
def mediaFilesOf (username : String) (files : List String) : List String :=
  (files.filter hasMediaExt).map (mediaPath username)

/-- `services.py` lines 120–190: build the `Post` row for one file group. -/
def buildPost (dir : List FSFile) (username : String) (uid : Nat)
    (tid : String) (files : List String) : StorePost :=
  let jrec := (files.find? (fun f => endswith f ".json")).bind
    (fun n => (findFile dir n).bind (·.jsonData))
  let textAfterJson := match jrec with
    | some j => jsonText j
    | none => none
  let text := match files.find? (fun f => endswith f ".txt") with
    | some n =>
      match findFile dir n with
      | some f => applyCaption f.lines textAfterJson
      | none => textAfterJson
    | none => textAfterJson
  { id := tid
    user_id := uid
    timestamp := parse_timestamp dir files
    text_content := text
    media_files := mediaFilesOf username files
    retweet_count := jrec.bind (·.retweet_count)
    reply_count := jrec.bind (·.reply_count)
    favorite_count := jrec.bind (·.favorite_count)
    bookmark_count := jrec.bind (·.bookmark_count)
    raw_json_data := jrec.map (·.dump) }

/-! ## Sync controller (`services.py`, `process_and_cache_user_posts`) -/

/-- `User.query.filter_by(username=...).first()`, creating the row with the
next autoincrement id when absent (`services.py` lines 29–34). -/
def findOrCreateUser (s : Store) (username : String) : StoreUser × Store :=
  match s.users.find? (fun u => u.username == username) with
  | some u => (u, s)
  | none =>
    let u : StoreUser := { id := s.nextUserId, username := username }
    (u, { s with users := s.users ++ [u], nextUserId := s.nextUserId + 1 })

/-- Commit the refreshed profile fields of the user with id `uid`. -/
def refreshProfile (s : Store) (j : UserJson) (uid : Nat) : Store :=
  { s with users := s.users.map (fun x => if x.id == uid then applyUserJson j x else x) }

/-- `services.py` lines 115–192: walk the groups in order; a tweet id
already present in the store (`db.session.get(Post, tweet_id)`) is skipped,
any other group gets a freshly built post appended. -/
def scanGroups (dir : List FSFile) (username : String) (uid : Nat) :
    List (String × List String) → Store → Store × Nat
  | [], s => (s, 0)
  | (tid, files) :: rest, s =>
    if s.posts.any (fun p => p.id == tid) then
      scanGroups dir username uid rest s
    else
      let p := buildPost dir username uid tid files
      let r := scanGroups dir username uid rest { s with posts := s.posts ++ [p] }
      (r.1, r.2 + 1)

/-- The body of `process_and_cache_user_posts` once the author directory
has been found: find-or-create the author row, refresh the profile from
the most authoritative metadata file, then either skip (populated,
non-forced), or delete-then-rescan (forced), or scan (empty). -/
def syncDir (dir : List FSFile) (s : Store) (username : String) (force_rescan : Bool) :
    Store × (Nat × Nat) :=
  let fo := findOrCreateUser s username
  let u₀ := fo.1
  let j := selectUserJson dir username
  let s₂ := refreshProfile fo.2 j u₀.id
  if force_rescan then
    let deleted := s₂.posts.countP (fun p => p.user_id == u₀.id)
    let s₃ := { s₂ with posts := s₂.posts.filter (fun p => ¬ p.user_id == u₀.id) }
    let r := scanGroups dir username u₀.id (groupFiles dir) s₃
    (r.1, (r.2, deleted))
  else
    if s₂.posts.any (fun p => p.user_id == u₀.id) then (s₂, (0, 0))
    else
      let r := scanGroups dir username u₀.id (groupFiles dir) s₂
      (r.1, (r.2, 0))

/-- `process_and_cache_user_posts(username, force_rescan)` over the model:
returns the updated store together with
`(newly_added_posts_count, posts_deleted)`.  A missing author directory
yields `(0, 0)` and leaves the store untouched. -/
def sync (fs : FS) (s : Store) (username : String) (force_rescan : Bool) :
    Store × (Nat × Nat) :=
  match dirOf fs username with
  | none => (s, (0, 0))
  | some dir => syncDir dir s username force_rescan

/-- `User.query.filter_by(username=username).first()`. -/
def userByName (s : Store) (username : String) : Option StoreUser :=
  s.users.find? (fun u => u.username == username)

/-! ## Concrete inputs used by the claim theorems below -/

/-- Whether a directory entry lands in the group of `tid`. -/
def matchesTid (tid : String) (f : FSFile) : Bool :=
  f.isRegular && (extract_tweet_id_from_filename f.name == some tid)

/-- The `alice` directory of the end-to-end scenario:
`111_20200101.json` containing
`{"date": "2020-01-01 10:00:00", "full_text": "hi"}` and
`111_20200101.jpg`. -/
def aliceDir : List FSFile :=
  [{ name := "111_20200101.json",
     jsonData := some
       { date := some "2020-01-01 10:00:00",
         full_text := some (some "hi"),
         dump := "\x7b\x22date\x22: \x222020-01-01 10:00:00\x22, \x22full_text\x22: \x22hi\x22\x7d" },
     mtime := some 1577872800 },
   { name := "111_20200101.jpg", mtime := some 1577872800 }]

/-- Directory exhibiting the body-selection behaviour: a metadata file
whose `full_text` is present but empty alongside a nonempty `content`, and
a caption file with a timestamp first line. -/
def c8Dir : List FSFile :=
  [{ name := "222.json",
     jsonData := some { full_text := some (some ""), content := some (some "hello") } },
   { name := "333.txt", lines := ["2020-01-01 10:00:00\n", "body\n"] }]

/-- Inputs for the C6 counterexample: the selected metadata record carries
`followers_count: null`, an absent (null) value, for an author stored with
`followers_count = 100`. -/
def c6Dir : List FSFile :=
  [{ name := "a.json",
     jsonData := some { author := some { nick := some (some "alice"),
                                         followers_count := some none } } }]

def c6Store : Store :=
  ⟨[{ id := 1, username := "alice", followers_count := some 100 }], [], 2⟩

/-- Sample store for the C2 witness: alice (id 1) already has post `900`,
bob (id 2) has post `901`; alice's directory now holds one media file for
post `222`. -/
def c2Store : Store :=
  ⟨[{ id := 1, username := "alice" }, { id := 2, username := "bob" }],
   [{ id := "900", user_id := 1 }, { id := "901", user_id := 2 }], 3⟩

def c2Dir : List FSFile := [{ name := "222.jpg", mtime := some 5 }]

/-- Store for the C1 witness: alice already has one cached post. -/
def c1Store : Store :=
  ⟨[{ id := 1, username := "alice" }], [{ id := "7", user_id := 1 }], 2⟩

def c1Dir : List FSFile := [{ name := "7.jpg", mtime := some 3 }]

/-! ## Claims about the timestamp resolver -/

/-- **C3.** When the metadata file's `date` field, the caption file's first
line, and a filename-embedded 9–11 digit epoch are all structurally valid
yet disagree, `parse_timestamp` returns the metadata file's `date` value:
the fallback chain stops at the first source yielding a valid value. -/
theorem claim_C3 (dir : List FSFile) (files : List String)
    (jn : String) (hjn : files.find? (fun f => endswith f ".json") = some jn)
    (j : PostJson) (hj : (findFile dir jn).bind (·.jsonData) = some j)
    (ds : String) (hds : j.date = some ds) (hne : (ds == "") = false)
    (d₁ : DateTime) (h₁ : strptimeYmdHms ds = some d₁)
    (tn : String) (htn : files.find? (fun f => endswith f ".txt") = some tn)
    (tf : FSFile) (htf : findFile dir tn = some tf)
    (d₂ : DateTime) (h₂ : strptimeYmdHms (pyStrip (tf.lines.headD "")) = some d₂)
    (v : Nat) (hv : tsFromEpoch files = some v)
    (hdisagree₁ : d₁ ≠ d₂) (hdisagree₂ : TS.civil d₁ ≠ TS.epochSec v) :
    parse_timestamp dir files = some (.civil d₁) := by
  simp [parse_timestamp, tsFromJson, hjn, hj, hds, hne, h₁]

/-- Witness for C3: all three sources valid and pairwise different; the
resolver returns the metadata value `2020-01-01 10:00:00`. -/
theorem claim_C3_witness :
    parse_timestamp
      [{ name := "111.json", jsonData := some { date := some "2020-01-01 10:00:00" } },
       { name := "111.txt", lines := ["2021-02-03 04:05:06\n", "x"] },
       { name := "111_1600000000.jpg" }]
      ["111.json", "111.txt", "111_1600000000.jpg"]
      = some (.civil ⟨2020, 1, 1, 10, 0, 0⟩) :=
  claim_C3 _ _ "111.json" (by decide) { date := some "2020-01-01 10:00:00" } (by decide)
    "2020-01-01 10:00:00" rfl (by decide) ⟨2020, 1, 1, 10, 0, 0⟩ (by decide)
    "111.txt" (by decide) { name := "111.txt", lines := ["2021-02-03 04:05:06\n", "x"] } (by decide)
    ⟨2021, 2, 3, 4, 5, 6⟩ (by decide) 1600000000 (by decide) (by decide) (by decide)

/-- Every value accepted by the epoch source lies within the sanity bounds. -/
theorem tsFromEpoch_bounds :
    ∀ (files : List String) (v : Nat), tsFromEpoch files = some v →
      946684800 ≤ v ∧ v < 2524608000 := by
  intro files
  induction files with
  | nil => intro v hv; simp [tsFromEpoch] at hv
  | cons f rest ih =>
    intro v hv
    rw [tsFromEpoch, List.findSome?_cons] at hv
    revert hv
    cases hfr : firstDigitRun (splitextStem f) with
    | none => intro hv; exact ih v hv
    | some ds =>
      simp only
      by_cases hin : 946684800 ≤ digitsToNat ds && digitsToNat ds < 2524608000
      · rw [if_pos hin]
        intro hv
        cases hv
        simpa [Bool.and_eq_true, decide_eq_true_iff] using hin
      · rw [if_neg hin]
        intro hv; exact ih v hv

/-- When every 9–11 digit run in the group is out of bounds, the epoch
source yields nothing. -/
theorem tsFromEpoch_none_of_out_of_bounds (files : List String)
    (hout : ∀ fn ∈ files, ∀ ds, firstDigitRun (splitextStem fn) = some ds →
      digitsToNat ds < 946684800) :
    tsFromEpoch files = none := by
  induction files with
  | nil => rfl
  | cons f rest ih =>
    rw [tsFromEpoch, List.findSome?_cons]
    cases hfr : firstDigitRun (splitextStem f) with
    | none =>
      exact ih fun fn hfn ds hds => hout fn (List.mem_cons_of_mem f hfn) ds hds
    | some ds =>
      have hlt := hout f (List.mem_cons_self f rest) ds hfr
      simp only
      rw [if_neg (by simp [decide_eq_true_iff]; omega)]
      exact ih fun fn hfn ds₁ hds₁ => hout fn (List.mem_cons_of_mem f hfn) ds₁ hds₁

/-- **C9.** The filename-embedded epoch source accepts only values in
`[946684800, 2524608000)`; in particular, when neither the metadata nor
the caption source yields a timestamp and every filename digit run falls
below the 2000-01-01 floor (such as `0000000001`, value 1), resolution
falls through to the filesystem modification time. -/
theorem claim_C9 :
    (∀ (files : List String) (v : Nat), tsFromEpoch files = some v →
      946684800 ≤ v ∧ v < 2524608000) ∧
    (∀ (dir : List FSFile) (files : List String) (t : Nat),
      tsFromJson dir files = none → tsFromTxt dir files = none →
      (∀ fn ∈ files, ∀ ds, firstDigitRun (splitextStem fn) = some ds →
        digitsToNat ds < 946684800) →
      tsFromMtime dir files = some t →
      parse_timestamp dir files = some (.mtimeSec t)) := by
  refine ⟨tsFromEpoch_bounds, ?_⟩
  intro dir files t h₁ h₂ hout ht
  rw [parse_timestamp, h₁, h₂, tsFromEpoch_none_of_out_of_bounds files hout, ht]
  rfl

/-- Witness for C9: a lone file `0000000001.jpg` (digit run value 1, below
the floor) with modification time 99; resolution ends at the mtime source. -/
theorem claim_C9_witness :
    parse_timestamp [{ name := "0000000001.jpg", mtime := some 99 }] ["0000000001.jpg"]
      = some (.mtimeSec 99) ∧ 946684800 ≤ 1600000000 ∧ 1600000000 < 2524608000 := by
  constructor
  · exact claim_C9.2 [{ name := "0000000001.jpg", mtime := some 99 }] ["0000000001.jpg"] 99
      (by decide) (by decide) (by decide) (by decide)
  · exact claim_C9.1 ["a_1600000000.jpg"] 1600000000 (by decide)

/-! ## Claims about the sync controller -/

/-- **C7.** When the author's directory does not exist, `sync` returns
`(0, 0)` for either value of `force_rescan` and performs no store
mutation whatsoever. -/
theorem claim_C7 (fs : FS) (s : Store) (username : String) (force_rescan : Bool)
    (hdir : dirOf fs username = none) :
    sync fs s username force_rescan = (s, (0, 0)) := by
  simp [sync, hdir]

/-- Witness for C7: an empty filesystem root and a nonempty store. -/
theorem claim_C7_witness :
    sync [] ⟨[{ id := 1, username := "bob" }], [{ id := "5", user_id := 1 }], 2⟩ "alice" true
      = (⟨[{ id := 1, username := "bob" }], [{ id := "5", user_id := 1 }], 2⟩, (0, 0)) :=
  claim_C7 [] ⟨[{ id := 1, username := "bob" }], [{ id := "5", user_id := 1 }], 2⟩
    "alice" true rfl


/-- **C4.** End-to-end: `sync("alice", false)` on a fresh store over the
`alice` directory returns `(1, 0)` and persists exactly one post with
identifier `111`, timestamp `2020-01-01 10:00:00`, body `"hi"`, and the
single author-prefixed forward-slash media path `alice/111_20200101.jpg`. -/
theorem claim_C4 :
    (sync [("alice", aliceDir)] ⟨[], [], 1⟩ "alice" false).2 = (1, 0) ∧
    (sync [("alice", aliceDir)] ⟨[], [], 1⟩ "alice" false).1.posts =
      [{ id := "111",
         user_id := 1,
         timestamp := some (.civil ⟨2020, 1, 1, 10, 0, 0⟩),
         text_content := some "hi",
         media_files := ["alice/111_20200101.jpg"],
         raw_json_data := some
           "\x7b\x22date\x22: \x222020-01-01 10:00:00\x22, \x22full_text\x22: \x22hi\x22\x7d" }] := by
  decide

/-! ## Claims about media-file recognition -/

theorem lowerChar_eq_of_upper {c : Char} (h1 : 65 ≤ c.toNat) (h2 : c.toNat ≤ 90) :
    lowerChar c = Char.ofNat (c.toNat + 32) := by
  rw [lowerChar, if_pos (by simp only [Bool.and_eq_true, decide_eq_true_iff]; exact ⟨h1, h2⟩)]

theorem toNat_ofNat_of_small {n : Nat} (h : n < 55296) : (Char.ofNat n).toNat = n := by
  rw [Char.ofNat, dif_pos (Or.inl h : Nat.isValidChar n)]
  rfl

theorem lowerChar_idem (c : Char) : lowerChar (lowerChar c) = lowerChar c := by
  by_cases h : 65 ≤ c.toNat ∧ c.toNat ≤ 90
  · obtain ⟨h1, h2⟩ := h
    have hval : (Char.ofNat (c.toNat + 32)).toNat = c.toNat + 32 :=
      toNat_ofNat_of_small (by omega)
    rw [lowerChar_eq_of_upper h1 h2, lowerChar,
      if_neg (by simp only [Bool.and_eq_true, decide_eq_true_iff, hval]; omega)]
  · have hc : lowerChar c = c := by
      rw [lowerChar, if_neg (by simp only [Bool.and_eq_true, decide_eq_true_iff]; exact h)]
    rw [hc, hc]

/-- ASCII lowercasing is idempotent, so recognition only sees the
lowercased name. -/
theorem lowerStr_idem (s : String) : lowerStr (lowerStr s) = lowerStr s := by
  simp only [lowerStr, List.map_map]
  congr 1
  apply List.map_congr_left
  intro c _
  exact lowerChar_idem c

theorem mediaPath_inj {u a b : String} (h : mediaPath u a = mediaPath u b) : a = b := by
  apply String.ext
  have h2 := congrArg String.data h
  simp only [mediaPath, String.data_append] at h2
  exact List.append_cancel_left h2

/-- **C10.** A filename of a post's group is recorded in the media path
list exactly when its lowercased form ends with one of the recognized
(lowercase) media extensions; recognition is therefore case-insensitive —
a name and its lowercased counterpart are treated identically. -/
theorem claim_C10 :
    (∀ (username : String) (files : List String) (fn : String), fn ∈ files →
      (mediaPath username fn ∈ mediaFilesOf username files ↔ hasMediaExt fn = true)) ∧
    (∀ fn : String, hasMediaExt (lowerStr fn) = hasMediaExt fn) := by
  constructor
  · intro u files fn hmem
    simp only [mediaFilesOf]
    constructor
    · intro hin
      obtain ⟨a, ha, heq⟩ := List.mem_map.mp hin
      obtain ⟨-, hext⟩ := List.mem_filter.mp ha
      rwa [mediaPath_inj heq] at hext
    · intro hext
      exact List.mem_map_of_mem _ (List.mem_filter.mpr ⟨hmem, hext⟩)
  · intro fn
    simp only [hasMediaExt, lowerStr_idem]

/-- Witness for C10: uppercase `.JPG` and mixed-case `.Mp4` are recognized
exactly like their lowercase forms, and a `.txt` name is not. -/
theorem claim_C10_witness :
    (mediaPath "alice" "A_1.JPG" ∈ mediaFilesOf "alice" ["A_1.JPG", "note.txt", "b.Mp4"] ↔
      hasMediaExt "A_1.JPG" = true) ∧
    hasMediaExt "A_1.JPG" = true ∧ hasMediaExt "a_1.jpg" = true ∧
    hasMediaExt "b.Mp4" = true ∧ hasMediaExt "b.mp4" = true ∧
    hasMediaExt "note.txt" = false :=
  ⟨claim_C10.1 "alice" ["A_1.JPG", "note.txt", "b.Mp4"] "A_1.JPG" (by decide),
   by decide, by decide, by decide, by decide, by decide⟩

/-! ## Claims about the filename tagger and file grouper -/

theorem takeWhile_append_of_all {p : Char → Bool} {s t : List Char}
    (h : s.all p = true) : (s ++ t).takeWhile p = s ++ t.takeWhile p := by
  induction s with
  | nil => rfl
  | cons c cs ih =>
    rw [List.all_cons, Bool.and_eq_true] at h
    simp only [List.cons_append, List.takeWhile_cons, h.1, if_pos, ih h.2]

theorem takeWhile_eq_nil_of_head {p : Char → Bool} {t : List Char}
    (h : ∀ c, t.head? = some c → p c = false) : t.takeWhile p = [] := by
  cases t with
  | nil => rfl
  | cons c cs => simp [List.takeWhile_cons, h c rfl]

/-- `groupLookup` after appending a value under key `k`: the entry of `k`
grows by `v` at the end, and every other entry is untouched. -/
theorem groupLookup_assocAppend_self (k v : String) (acc : List (String × List String)) :
    groupLookup (assocAppend k v acc) k = groupLookup acc k ++ [v] := by
  induction acc with
  | nil => simp [assocAppend, groupLookup]
  | cons e rest ih =>
    obtain ⟨k₁, vs⟩ := e
    by_cases hk : k₁ == k
    · simp only [assocAppend, hk, if_pos, groupLookup, List.find?_cons, hk]
    · simp only [assocAppend, hk, Bool.false_eq_true, if_neg, not_false_iff, groupLookup,
        List.find?_cons]
      rw [groupLookup] at ih
      simpa [hk] using ih

theorem groupLookup_assocAppend_other {k tid : String} (v : String)
    (acc : List (String × List String)) (hne : (k == tid) = false) :
    groupLookup (assocAppend k v acc) tid = groupLookup acc tid := by
  induction acc with
  | nil => simp [assocAppend, groupLookup, hne]
  | cons e rest ih =>
    obtain ⟨k₁, vs⟩ := e
    by_cases hk : k₁ == k
    · have hk1 : (k₁ == tid) = false := by
        have h1 : k₁ = k := by simpa using hk
        rwa [h1]
      simp [assocAppend, hk, groupLookup, List.find?_cons, hk1]
    · simp only [assocAppend, hk, Bool.false_eq_true, if_neg, not_false_iff, groupLookup,
        List.find?_cons]
      rw [groupLookup] at ih
      by_cases hk2 : k₁ == tid
      · simp [hk2]
      · simpa [hk2] using ih


/-- The group of `tid` accumulates exactly the names of the regular files
whose extracted id is `tid`, in listing order. -/
theorem groupLookup_groupFilesAux (tid : String) :
    ∀ (dir : List FSFile) (acc : List (String × List String)),
      groupLookup (groupFilesAux acc dir) tid
        = groupLookup acc tid ++ (dir.filter (matchesTid tid)).map (·.name) := by
  intro dir
  induction dir with
  | nil => intro acc; simp [groupFilesAux]
  | cons f rest ih =>
    intro acc
    rw [groupFilesAux]
    by_cases hreg : f.isRegular
    · cases hex : extract_tweet_id_from_filename f.name with
      | none =>
        have hm : matchesTid tid f = false := by simp [matchesTid, hex]
        simp [hreg, hex, ih, hm]
      | some tid₂ =>
        by_cases heq : (tid₂ == tid) = true
        · have htid : tid = tid₂ := (eq_of_beq heq).symm
          subst htid
          have hm : matchesTid tid f = true := by simp [matchesTid, hreg, hex]
          simp [hreg, hex, ih, hm, groupLookup_assocAppend_self]
        · have heqf : (tid₂ == tid) = false := by simpa using heq
          have hm : matchesTid tid f = false := by simp [matchesTid, hex, heqf]
          simp [hreg, hex, ih, hm, groupLookup_assocAppend_other _ acc heqf]
    · have hregf : f.isRegular = false := by simpa using hreg
      have hm : matchesTid tid f = false := by simp [matchesTid, hregf]
      simp [hregf, ih, hm]

/-- Closed form of a group's contents. -/
theorem groupLookup_groupFiles (dir : List FSFile) (tid : String) :
    groupLookup (groupFiles dir) tid = (dir.filter (matchesTid tid)).map (·.name) := by
  rw [groupFiles, groupLookup_groupFilesAux]
  rfl

/-- **C5.** The tagger returns exactly the maximal leading decimal-digit
run: on `digits ++ rest` (digits nonempty, `rest` not starting with a
digit) it returns the digits, and the grouper files such a name under that
identifier; a filename with no leading digit gets no identifier and
appears in no group. -/
theorem claim_C5 :
    (∀ (s t : List Char), s ≠ [] → s.all Char.isDigit = true →
      (∀ c, t.head? = some c → c.isDigit = false) →
      extract_tweet_id_from_filename (String.mk (s ++ t)) = some (String.mk s)) ∧
    (∀ (dir : List FSFile) (f : FSFile), f ∈ dir → f.isRegular = true →
      ∀ tid, extract_tweet_id_from_filename f.name = some tid →
        f.name ∈ groupLookup (groupFiles dir) tid) ∧
    (∀ fn : String, (∀ c, fn.data.head? = some c → c.isDigit = false) →
      extract_tweet_id_from_filename fn = none ∧
      ∀ (dir : List FSFile) (tid : String), fn ∉ groupLookup (groupFiles dir) tid) := by
  refine ⟨?_, ?_, ?_⟩
  · intro s t hs hall hhead
    rw [extract_tweet_id_from_filename]
    rw [show (String.mk (s ++ t)).data = s ++ t from rfl,
      takeWhile_append_of_all hall, takeWhile_eq_nil_of_head hhead, List.append_nil]
    simp [List.isEmpty_iff, hs]
  · intro dir f hf hreg tid hex
    rw [groupLookup_groupFiles]
    exact List.mem_map_of_mem _
      (List.mem_filter.mpr ⟨hf, by simp [matchesTid, hreg, hex]⟩)
  · intro fn hhead
    have hex : extract_tweet_id_from_filename fn = none := by
      rw [extract_tweet_id_from_filename]
      simp [takeWhile_eq_nil_of_head hhead]
    refine ⟨hex, ?_⟩
    intro dir tid hin
    rw [groupLookup_groupFiles] at hin
    obtain ⟨f, hfmem, hname⟩ := List.mem_map.mp hin
    obtain ⟨-, hmatch⟩ := List.mem_filter.mp hfmem
    rw [matchesTid, Bool.and_eq_true] at hmatch
    rw [hname] at hmatch
    rw [hex] at hmatch
    simpa using hmatch.2

/-- Witness for C5: `123_x.jpg` is tagged `123` and grouped under `123`;
`cover.jpg` gets no tag and is in no group of a sample directory. -/
theorem claim_C5_witness :
    extract_tweet_id_from_filename (String.mk ("123".data ++ "_x.jpg".data)) =
      some (String.mk "123".data) ∧
    "123_x.jpg" ∈ groupLookup (groupFiles [{ name := "123_x.jpg" }]) "123" ∧
    extract_tweet_id_from_filename "cover.jpg" = none ∧
    "cover.jpg" ∉ groupLookup (groupFiles [{ name := "123_x.jpg" }, { name := "cover.jpg" }]) "123" := by
  have h3 := claim_C5.2.2 "cover.jpg" (by decide)
  exact ⟨claim_C5.1 "123".data "_x.jpg".data (by decide) (by decide) (by decide),
    claim_C5.2.1 [{ name := "123_x.jpg" }] { name := "123_x.jpg" }
      (by simp) rfl "123" (by decide),
    h3.1, h3.2 [{ name := "123_x.jpg" }, { name := "cover.jpg" }] "123"⟩

/-! ## Claims about body extraction -/


/-- Counterexample to C8 as stated: with `full_text = ""` present and
`content = "hello"`, the first *present* field is `full_text` with value
`""`, yet the extracted body is `"hello"` — the chain skips falsy values.
Moreover a caption body is stripped: `"body\n"` is stored as `"body"`,
not as the file content with the first line dropped. -/
theorem claim_C8_cex :
    (buildPost c8Dir "u" 1 "222" ["222.json"]).text_content = some "hello" ∧
    ((findFile c8Dir "222.json").bind (·.jsonData)).map (·.full_text)
      = some (some (some "")) ∧
    (buildPost c8Dir "u" 1 "333" ["333.txt"]).text_content = some "body" := by
  decide

/-- **C8 (amended).** The extracted body is the first of `full_text`,
`content`, `text` whose value is truthy (present, non-null, non-empty);
when none is truthy but at least one of the keys is present the chain
degenerates to the `text` lookup verbatim; when the body is still falsy
and a caption file with at least one line exists, the body becomes the
caption lines joined and whitespace-stripped, dropping the first line
when its stripped form parses as `YYYY-MM-DD HH:MM:SS` and keeping all
lines otherwise; a truthy body is never replaced by the caption. -/
theorem claim_C8 :
    (∀ (j : PostJson) (v : String), j.full_text.join = some v → v ≠ "" →
      jsonText j = some v) ∧
    (∀ (j : PostJson) (v : String), pyTruthy j.full_text.join = false →
      j.content.join = some v → v ≠ "" → jsonText j = some v) ∧
    (∀ (j : PostJson) (v : String), pyTruthy j.full_text.join = false →
      pyTruthy j.content.join = false → j.text.join = some v →
      jsonText j = some v) ∧
    (∀ j : PostJson, j.full_text = none → j.content = none → j.text = none →
      jsonText j = none) ∧
    (∀ (lines : List String) (cur : Option String), pyTruthy cur = true →
      applyCaption lines cur = cur) ∧
    (∀ (first : String) (rest : List String) (cur : Option String) (d : DateTime),
      strptimeYmdHms (pyStrip first) = some d → pyTruthy cur = false →
      applyCaption (first :: rest) cur = some (pyStrip (joinStrings rest))) ∧
    (∀ (first : String) (rest : List String) (cur : Option String),
      strptimeYmdHms (pyStrip first) = none → pyTruthy cur = false →
      applyCaption (first :: rest) cur = some (pyStrip (joinStrings (first :: rest)))) := by
  refine ⟨?_, ?_, ?_, ?_, ?_, ?_, ?_⟩
  · intro j v hj hv
    have hsome : j.full_text = some (some v) := by
      cases hft : j.full_text with
      | none => rw [hft] at hj; simp [Option.join] at hj
      | some w => rw [hft] at hj; simp [Option.join] at hj; rw [hj]
    have htr : pyTruthy (some v) = true := by simp [pyTruthy, hv]
    rw [jsonText, if_pos (by simp [hsome]), hj, pyOr, if_pos htr]
  · intro j v hft hj hv
    have hsome : j.content = some (some v) := by
      cases hc : j.content with
      | none => rw [hc] at hj; simp [Option.join] at hj
      | some w => rw [hc] at hj; simp [Option.join] at hj; rw [hj]
    have htr : pyTruthy (some v) = true := by simp [pyTruthy, hv]
    rw [jsonText, if_pos (by simp [hsome]), hj, pyOr,
      if_neg (by simp only [Bool.not_eq_true]; exact hft), pyOr, if_pos htr]
  · intro j v hft hc hj
    have hsome : j.text = some (some v) := by
      cases ht : j.text with
      | none => rw [ht] at hj; simp [Option.join] at hj
      | some w => rw [ht] at hj; simp [Option.join] at hj; rw [hj]
    rw [jsonText, if_pos (by simp [hsome]), hj, pyOr,
      if_neg (by simp only [Bool.not_eq_true]; exact hft), pyOr,
      if_neg (by simp only [Bool.not_eq_true]; exact hc)]
  · intro j hft hc ht
    rw [jsonText, if_neg (by simp [hft, hc, ht])]
  · intro lines cur htr
    cases lines with
    | nil => rfl
    | cons first rest =>
      rw [applyCaption]
      cases strptimeYmdHms (pyStrip first) <;> simp [htr]
  · intro first rest cur d hts htr
    rw [applyCaption, hts]
    simp [htr]
  · intro first rest cur hts htr
    rw [applyCaption, hts]
    simp [htr]

/-- Witness for C8: a truthy `full_text` wins; a timestamp-led caption
drops its first line (and is stripped); a plain caption keeps all lines. -/
theorem claim_C8_witness :
    jsonText { full_text := some (some "hi"), content := some (some "other") } = some "hi" ∧
    applyCaption ["2020-01-01 10:00:00\n", "x\n"] none = some (pyStrip (joinStrings ["x\n"])) ∧
    applyCaption ["plain\n", "y"] none = some (pyStrip (joinStrings ["plain\n", "y"])) := by
  obtain ⟨h1, h2, h3, h4, h5, h6, h7⟩ := claim_C8
  exact ⟨h1 { full_text := some (some "hi"), content := some (some "other") } "hi" rfl
      (by decide),
    h6 "2020-01-01 10:00:00\n" ["x\n"] none ⟨2020, 1, 1, 10, 0, 0⟩ (by decide) rfl,
    h7 "plain\n" ["y"] none (by decide) rfl⟩

/-! ## Sync-controller helper lemmas -/

theorem applyUserJson_id (j : UserJson) (u : StoreUser) : (applyUserJson j u).id = u.id := rfl

theorem applyUserJson_username (j : UserJson) (u : StoreUser) :
    (applyUserJson j u).username = u.username := rfl

theorem find?_append_none {α : Type} {p : α → Bool} {l₁ l₂ : List α}
    (h : l₁.find? p = none) : (l₁ ++ l₂).find? p = l₂.find? p := by
  induction l₁ with
  | nil => rfl
  | cons a l ih =>
    rw [List.find?_cons] at h
    cases hpa : p a with
    | true => rw [hpa] at h; simp at h
    | false =>
      rw [hpa] at h
      rw [List.cons_append, List.find?_cons, hpa]
      exact ih h

/-- Profile refresh keeps the found user findable, with its fields merged. -/
theorem find?_refresh_users (j : UserJson) :
    ∀ (users : List StoreUser) (hdl : String) (u : StoreUser),
      users.find? (fun x => x.username == hdl) = some u →
      (users.map (fun x => if x.id == u.id then applyUserJson j x else x)).find?
        (fun x => x.username == hdl) = some (applyUserJson j u) := by
  intro users
  induction users with
  | nil => intro hdl u hf; simp at hf
  | cons y ys ih =>
    intro hdl u hf
    by_cases hy : (y.username == hdl) = true
    · rw [@List.find?_cons_of_pos _ (fun x => x.username == hdl) y ys hy] at hf
      injection hf with hf
      subst hf
      rw [List.map_cons, if_pos (by simp : (y.id == y.id) = true)]
      exact List.find?_cons_of_pos _ (by rw [applyUserJson_username]; exact hy)
    · have hyf : (y.username == hdl) = false := by simpa using hy
      rw [@List.find?_cons_of_neg _ (fun x => x.username == hdl) y ys (by simp [hyf])] at hf
      rw [List.map_cons]
      refine (List.find?_cons_of_neg _ ?_).trans (ih hdl u hf)
      by_cases hid : (y.id == u.id) = true
      · rw [if_pos hid, applyUserJson_username]; simp [hyf]
      · rw [if_neg hid]; simp [hyf]

/-- `findOrCreateUser` never touches posts and leaves the author findable. -/
theorem findOrCreateUser_spec (s : Store) (hdl : String) :
    (findOrCreateUser s hdl).2.posts = s.posts ∧
    userByName (findOrCreateUser s hdl).2 hdl = some (findOrCreateUser s hdl).1 := by
  rw [findOrCreateUser, userByName]
  cases hf : s.users.find? (fun u => u.username == hdl) with
  | some u => exact ⟨rfl, hf⟩
  | none =>
    refine ⟨rfl, ?_⟩
    rw [find?_append_none hf]
    simp

theorem refreshProfile_posts (s : Store) (j : UserJson) (uid : Nat) :
    (refreshProfile s j uid).posts = s.posts := rfl

theorem scanGroups_users (dir : List FSFile) (un : String) (uid : Nat) :
    ∀ (gs : List (String × List String)) (s : Store),
      (scanGroups dir un uid gs s).1.users = s.users := by
  intro gs
  induction gs with
  | nil => intro s; rfl
  | cons g rest ih =>
    intro s
    obtain ⟨tid, files⟩ := g
    rw [scanGroups]
    by_cases hc : (s.posts.any (fun p => p.id == tid)) = true
    · rw [if_pos hc]; exact ih s
    · rw [if_neg hc]; exact ih _

/-- After any sync over an existing directory, the author row equals the
found-or-created row with the selected metadata merged over it. -/
theorem userByName_syncDir (dir : List FSFile) (s : Store) (hdl : String) (b : Bool) :
    userByName (syncDir dir s hdl b).1 hdl
      = some (applyUserJson (selectUserJson dir hdl) (findOrCreateUser s hdl).1) := by
  have hfind : userByName (findOrCreateUser s hdl).2 hdl = some (findOrCreateUser s hdl).1 :=
    (findOrCreateUser_spec s hdl).2
  have hprof : userByName (refreshProfile (findOrCreateUser s hdl).2 (selectUserJson dir hdl)
      (findOrCreateUser s hdl).1.id) hdl
      = some (applyUserJson (selectUserJson dir hdl) (findOrCreateUser s hdl).1) := by
    rw [userByName, refreshProfile]
    exact find?_refresh_users (selectUserJson dir hdl) _ hdl _ hfind
  rw [syncDir]
  cases b with
  | true =>
    simp only [if_true]
    rw [userByName, scanGroups_users]
    exact hprof
  | false =>
    simp only [Bool.false_eq_true, if_false]
    by_cases hpop : ((refreshProfile (findOrCreateUser s hdl).2 (selectUserJson dir hdl)
        (findOrCreateUser s hdl).1.id).posts.any
        (fun p => p.user_id == (findOrCreateUser s hdl).1.id)) = true
    · rw [if_pos hpop]
      exact hprof
    · rw [if_neg hpop]
      rw [userByName, scanGroups_users]
      exact hprof

/-! ## Claims about the author-profile merge -/


/-- Counterexample to C6 as stated: the refresh source carries
`followers_count: null` — it provides no non-absent value for the field —
yet the sync overwrites the stored `100` with NULL, because the code uses
`dict.get(key, current)`, which returns a present `null` as-is. -/
theorem claim_C6_cex :
    (userByName c6Store "alice").map (·.followers_count) = some (some 100) ∧
    (selectUserJson c6Dir "alice").followers_count = some none ∧
    (userByName (sync [("alice", c6Dir)] c6Store "alice" false).1 "alice").map
      (·.followers_count) = some none := by
  decide

/-- **C6 (amended).** After a sync over an existing author directory, the
stored author row is the previous (or freshly created) row with each
profile field overwritten exactly when the selected metadata source
contains that field's key — the new value is the source's value even when
that value is `null`; any field whose key is absent from the source is
left unchanged (an existing followers count of 100 stays 100 when the
source lacks the key). -/
theorem claim_C6 (fs : FS) (s : Store) (hdl : String) (b : Bool) (dir : List FSFile)
    (hdir : dirOf fs hdl = some dir) (u : StoreUser)
    (hu : (findOrCreateUser s hdl).1 = u)
    (j : UserJson) (hj : selectUserJson dir hdl = j) :
    userByName (sync fs s hdl b).1 hdl = some (applyUserJson j u) ∧
    ((j.name = none → (applyUserJson j u).name = u.name) ∧
     (∀ v, j.name = some v → (applyUserJson j u).name = v)) ∧
    ((j.nick = none → (applyUserJson j u).nick = u.nick) ∧
     (∀ v, j.nick = some v → (applyUserJson j u).nick = v)) ∧
    ((j.location = none → (applyUserJson j u).location = u.location) ∧
     (∀ v, j.location = some v → (applyUserJson j u).location = v)) ∧
    ((j.description = none → (applyUserJson j u).description = u.description) ∧
     (∀ v, j.description = some v → (applyUserJson j u).description = v)) ∧
    ((j.verified = none → (applyUserJson j u).verified = u.verified) ∧
     (∀ v, j.verified = some v → (applyUserJson j u).verified = v)) ∧
    ((j.profile_image = none → (applyUserJson j u).profile_image_url = u.profile_image_url) ∧
     (∀ v, j.profile_image = some v → (applyUserJson j u).profile_image_url = v)) ∧
    ((j.favourites_count = none → (applyUserJson j u).favourites_count = u.favourites_count) ∧
     (∀ v, j.favourites_count = some v → (applyUserJson j u).favourites_count = v)) ∧
    ((j.followers_count = none → (applyUserJson j u).followers_count = u.followers_count) ∧
     (∀ v, j.followers_count = some v → (applyUserJson j u).followers_count = v)) ∧
    ((j.friends_count = none → (applyUserJson j u).friends_count = u.friends_count) ∧
     (∀ v, j.friends_count = some v → (applyUserJson j u).friends_count = v)) ∧
    ((j.listed_count = none → (applyUserJson j u).listed_count = u.listed_count) ∧
     (∀ v, j.listed_count = some v → (applyUserJson j u).listed_count = v)) ∧
    ((j.media_count = none → (applyUserJson j u).media_count = u.media_count) ∧
     (∀ v, j.media_count = some v → (applyUserJson j u).media_count = v)) ∧
    ((j.statuses_count = none → (applyUserJson j u).statuses_count = u.statuses_count) ∧
     (∀ v, j.statuses_count = some v → (applyUserJson j u).statuses_count = v)) := by
  subst hu hj
  refine ⟨?_, ⟨fun hh => by simp [applyUserJson, hh], fun v hh => by simp [applyUserJson, hh]⟩,
      ⟨fun hh => by simp [applyUserJson, hh], fun v hh => by simp [applyUserJson, hh]⟩,
      ⟨fun hh => by simp [applyUserJson, hh], fun v hh => by simp [applyUserJson, hh]⟩,
      ⟨fun hh => by simp [applyUserJson, hh], fun v hh => by simp [applyUserJson, hh]⟩,
      ⟨fun hh => by simp [applyUserJson, hh], fun v hh => by simp [applyUserJson, hh]⟩,
      ⟨fun hh => by simp [applyUserJson, hh], fun v hh => by simp [applyUserJson, hh]⟩,
      ⟨fun hh => by simp [applyUserJson, hh], fun v hh => by simp [applyUserJson, hh]⟩,
      ⟨fun hh => by simp [applyUserJson, hh], fun v hh => by simp [applyUserJson, hh]⟩,
      ⟨fun hh => by simp [applyUserJson, hh], fun v hh => by simp [applyUserJson, hh]⟩,
      ⟨fun hh => by simp [applyUserJson, hh], fun v hh => by simp [applyUserJson, hh]⟩,
      ⟨fun hh => by simp [applyUserJson, hh], fun v hh => by simp [applyUserJson, hh]⟩,
      ⟨fun hh => by simp [applyUserJson, hh], fun v hh => by simp [applyUserJson, hh]⟩⟩
  simp only [sync, hdir]
  exact userByName_syncDir dir s hdl b

/-- Witness for C6 (amended): the author directory exists but offers no
matching metadata, so the selected source is empty and every stored field
— in particular `followers_count = 100` — survives the sync. -/
theorem claim_C6_witness :
    userByName (sync [("alice", [])] c6Store "alice" false).1 "alice"
      = some (applyUserJson {} { id := 1, username := "alice", followers_count := some 100 }) ∧
    (applyUserJson ({} : UserJson)
      { id := 1, username := "alice", followers_count := some 100 }).followers_count
      = some 100 := by
  have hh := claim_C6 [("alice", [])] c6Store "alice" false [] rfl
    { id := 1, username := "alice", followers_count := some 100 } rfl {} rfl
  exact ⟨hh.1, (hh.2.2.2.2.2.2.2.2.1.1 rfl).trans rfl⟩

/-! ## Full-rebuild correctness -/

theorem keys_assocAppend (k v : String) (acc : List (String × List String)) :
    (assocAppend k v acc).map Prod.fst
      = if acc.any (fun g => g.1 == k) then acc.map Prod.fst
        else acc.map Prod.fst ++ [k] := by
  induction acc with
  | nil => simp [assocAppend]
  | cons e rest ih =>
    obtain ⟨k₁, vs⟩ := e
    by_cases hk : (k₁ == k) = true
    · simp [assocAppend, hk]
    · have hkf : (k₁ == k) = false := by simpa using hk
      rw [assocAppend, if_neg (by simp [hkf])]
      by_cases hany : (rest.any fun g => g.1 == k) = true
      · simp [hkf, hany, ih]
      · have hanyf : (rest.any fun g => g.1 == k) = false := by
          rwa [Bool.not_eq_true] at hany
        simp [hkf, hanyf, ih]

theorem keys_nodup_groupFilesAux :
    ∀ (dir : List FSFile) (acc : List (String × List String)),
      (acc.map Prod.fst).Nodup → ((groupFilesAux acc dir).map Prod.fst).Nodup := by
  intro dir
  induction dir with
  | nil => intro acc h; exact h
  | cons f rest ih =>
    intro acc h
    rw [groupFilesAux]
    apply ih
    by_cases hreg : f.isRegular
    · cases hex : extract_tweet_id_from_filename f.name with
      | none => simpa [hreg, hex] using h
      | some tid =>
        rw [if_pos hreg]
        show (List.map Prod.fst (assocAppend tid f.name acc)).Nodup
        rw [keys_assocAppend]
        by_cases hany : (acc.any fun g => g.1 == tid) = true
        · rwa [if_pos hany]
        · rw [if_neg hany]
          refine List.Nodup.append h (List.nodup_singleton _) ?_
          intro a ha hb
          rw [List.mem_singleton] at hb
          subst hb
          obtain ⟨g, hg, hg1⟩ := List.mem_map.mp ha
          exact hany (List.any_eq_true.mpr ⟨g, hg, by simp [hg1]⟩)
    · have hregf : f.isRegular = false := by simpa using hreg
      simpa [hregf] using h

/-- The groups built from a directory listing have pairwise distinct ids. -/
theorem groupFiles_keys_nodup (dir : List FSFile) :
    ((groupFiles dir).map Prod.fst).Nodup :=
  keys_nodup_groupFilesAux dir [] (by simp)

/-- When no group id is present in the store, the scan appends one freshly
built post per group and counts them all. -/
theorem scanGroups_all_new (dir : List FSFile) (un : String) (uid : Nat) :
    ∀ (gs : List (String × List String)) (s : Store),
      (gs.map Prod.fst).Nodup →
      (∀ g ∈ gs, (s.posts.any fun p => p.id == g.1) = false) →
      scanGroups dir un uid gs s
        = ({ s with posts := s.posts ++ gs.map (fun g => buildPost dir un uid g.1 g.2) },
           gs.length) := by
  intro gs
  induction gs with
  | nil => intro s _ _; simp [scanGroups]
  | cons g rest ih =>
    intro s hnd hfresh
    obtain ⟨tid, files⟩ := g
    have hskip : (s.posts.any fun p => p.id == tid) = false :=
      hfresh (tid, files) (List.mem_cons_self _ _)
    rw [scanGroups, if_neg (by simp [hskip])]
    have htid : tid ∉ rest.map Prod.fst := by
      have := hnd
      rw [List.map_cons, List.nodup_cons] at this
      exact this.1
    have hrec := ih { s with posts := s.posts ++ [buildPost dir un uid tid files] }
      (by rw [List.map_cons] at hnd; exact hnd.of_cons)
      (by
        intro g' hg'
        rw [List.any_append, Bool.or_eq_false_iff]
        refine ⟨hfresh g' (List.mem_cons_of_mem _ hg'), ?_⟩
        have hne : tid ≠ g'.1 := by
          intro hEq
          exact htid (hEq ▸ List.mem_map_of_mem Prod.fst hg')
        simp [buildPost, hne])
    show ((scanGroups dir un uid rest
        { s with posts := s.posts ++ [buildPost dir un uid tid files] }).1,
      (scanGroups dir un uid rest
        { s with posts := s.posts ++ [buildPost dir un uid tid files] }).2 + 1) = _
    rw [hrec]
    simp

/-- **C2.** For an author whose directory exists (and, per the data-model
invariant, whose directory-derived post ids do not collide with other
authors' stored posts), `sync(h, true)` deletes all of the author's posts,
reports that count, and repopulates so that the author's stored posts are
exactly the posts derived from the current files — no identifier from
before the rebuild survives. -/
theorem claim_C2 (fs : FS) (s : Store) (hdl : String) (dir : List FSFile)
    (hdir : dirOf fs hdl = some dir) (uid : Nat)
    (huid : (findOrCreateUser s hdl).1.id = uid)
    (gs : List (String × List String)) (hgs : groupFiles dir = gs)
    (hforeign : ∀ p ∈ s.posts, p.user_id ≠ uid → ∀ g ∈ gs, p.id ≠ g.1) :
    (sync fs s hdl true).2.2 = (s.posts.filter (fun p => p.user_id == uid)).length ∧
    (sync fs s hdl true).1.posts.filter (fun p => p.user_id == uid)
      = gs.map (fun g => buildPost dir hdl uid g.1 g.2) ∧
    (sync fs s hdl true).2.1 = gs.length := by
  subst huid hgs
  have hposts₂ : (refreshProfile (findOrCreateUser s hdl).2 (selectUserJson dir hdl)
      (findOrCreateUser s hdl).1.id).posts = s.posts := by
    rw [refreshProfile_posts, (findOrCreateUser_spec s hdl).1]
  have hscan := scanGroups_all_new dir hdl (findOrCreateUser s hdl).1.id (groupFiles dir)
    { refreshProfile (findOrCreateUser s hdl).2 (selectUserJson dir hdl)
        (findOrCreateUser s hdl).1.id with
      posts := (refreshProfile (findOrCreateUser s hdl).2 (selectUserJson dir hdl)
        (findOrCreateUser s hdl).1.id).posts.filter
          (fun p => ¬ p.user_id == (findOrCreateUser s hdl).1.id) }
    (groupFiles_keys_nodup dir)
    (by
      intro g hg
      rw [List.any_eq_false]
      intro p hp
      rw [hposts₂] at hp
      obtain ⟨hpmem, hpuid⟩ := List.mem_filter.mp hp
      have hne : p.user_id ≠ (findOrCreateUser s hdl).1.id := by
        intro hEq
        simp [hEq] at hpuid
      have := hforeign p hpmem hne g hg
      simp [this])
  simp only [sync, hdir, syncDir, if_true]
  rw [hscan]
  refine ⟨?_, ?_, rfl⟩
  · rw [hposts₂, List.countP_eq_length_filter]
  · rw [List.filter_append]
    have h₁ : ((refreshProfile (findOrCreateUser s hdl).2 (selectUserJson dir hdl)
        (findOrCreateUser s hdl).1.id).posts.filter
          (fun p => ¬ p.user_id == (findOrCreateUser s hdl).1.id)).filter
          (fun p => p.user_id == (findOrCreateUser s hdl).1.id) = [] := by
      rw [List.filter_eq_nil_iff]
      intro p hp
      obtain ⟨-, hpuid⟩ := List.mem_filter.mp hp
      simp only [Bool.not_eq_true] at hpuid ⊢
      simpa using hpuid
    have h₂ : ((groupFiles dir).map
          (fun g => buildPost dir hdl (findOrCreateUser s hdl).1.id g.1 g.2)).filter
          (fun p => p.user_id == (findOrCreateUser s hdl).1.id)
        = (groupFiles dir).map
            (fun g => buildPost dir hdl (findOrCreateUser s hdl).1.id g.1 g.2) := by
      rw [List.filter_eq_self]
      intro p hp
      obtain ⟨g, -, hgp⟩ := List.mem_map.mp hp
      rw [← hgp]
      simp [buildPost]
    rw [h₁, h₂, List.nil_append]


/-- Witness for C2: the forced resync deletes alice's one old post and
rebuilds her posts as exactly the one derived from `222.jpg`. -/
theorem claim_C2_witness :
    (sync [("alice", c2Dir)] c2Store "alice" true).2.2 = 1 ∧
    (sync [("alice", c2Dir)] c2Store "alice" true).1.posts.filter
      (fun p => p.user_id == 1) = [buildPost c2Dir "alice" 1 "222" ["222.jpg"]] ∧
    (sync [("alice", c2Dir)] c2Store "alice" true).2.1 = 1 := by
  have hh := claim_C2 [("alice", c2Dir)] c2Store "alice" c2Dir rfl 1 rfl
    [("222", ["222.jpg"])] (by decide)
    (by
      intro p hp hne g hg
      fin_cases hp <;> fin_cases hg <;> simp_all)
  exact ⟨hh.1.trans (by decide), hh.2.1.trans (by decide), hh.2.2.trans rfl⟩

/-! ## Idempotence of the incremental sync -/

/-- Unfolded form of the non-forced sync body. -/
theorem syncDir_false_eq (dir : List FSFile) (s : Store) (hdl : String) :
    syncDir dir s hdl false =
      (if ((refreshProfile (findOrCreateUser s hdl).2 (selectUserJson dir hdl)
            (findOrCreateUser s hdl).1.id).posts.any
          (fun p => p.user_id == (findOrCreateUser s hdl).1.id)) = true
       then (refreshProfile (findOrCreateUser s hdl).2 (selectUserJson dir hdl)
            (findOrCreateUser s hdl).1.id, (0, 0))
       else ((scanGroups dir hdl (findOrCreateUser s hdl).1.id (groupFiles dir)
            (refreshProfile (findOrCreateUser s hdl).2 (selectUserJson dir hdl)
              (findOrCreateUser s hdl).1.id)).1,
            ((scanGroups dir hdl (findOrCreateUser s hdl).1.id (groupFiles dir)
            (refreshProfile (findOrCreateUser s hdl).2 (selectUserJson dir hdl)
              (findOrCreateUser s hdl).1.id)).2, 0))) := rfl

/-- The scan only appends posts: the new tail carries the author's id, its
length is the reported count, and an empty tail means every group id was
already present. -/
theorem scanGroups_decomp (dir : List FSFile) (un : String) (uid : Nat) :
    ∀ (gs : List (String × List String)) (s : Store),
      ∃ new : List StorePost,
        (scanGroups dir un uid gs s).1.posts = s.posts ++ new ∧
        (scanGroups dir un uid gs s).2 = new.length ∧
        (∀ p ∈ new, p.user_id = uid) ∧
        (new = [] → ∀ g ∈ gs, (s.posts.any fun p => p.id == g.1) = true) := by
  intro gs
  induction gs with
  | nil =>
    intro s
    exact ⟨[], by simp [scanGroups], rfl, by simp,
      fun _ g hg => absurd hg (List.not_mem_nil g)⟩
  | cons g rest ih =>
    intro s
    obtain ⟨tid, files⟩ := g
    by_cases hc : (s.posts.any fun p => p.id == tid) = true
    · obtain ⟨new, h1, h2, h3, h4⟩ := ih s
      refine ⟨new, ?_, ?_, h3, ?_⟩
      · rw [scanGroups, if_pos hc]; exact h1
      · rw [scanGroups, if_pos hc]; exact h2
      · intro hnil g₁ hg₁
        rcases List.mem_cons.mp hg₁ with hEq | hmem
        · subst hEq; exact hc
        · exact h4 hnil g₁ hmem
    · obtain ⟨new, h1, h2, h3, h4⟩ :=
        ih { s with posts := s.posts ++ [buildPost dir un uid tid files] }
      refine ⟨buildPost dir un uid tid files :: new, ?_, ?_, ?_, ?_⟩
      · rw [scanGroups, if_neg hc]
        show (scanGroups dir un uid rest
          { s with posts := s.posts ++ [buildPost dir un uid tid files] }).1.posts = _
        rw [h1]; simp
      · rw [scanGroups, if_neg hc]
        show (scanGroups dir un uid rest
          { s with posts := s.posts ++ [buildPost dir un uid tid files] }).2 + 1 = _
        rw [h2]; simp
      · intro p hp
        rcases List.mem_cons.mp hp with hEq | hmem
        · subst hEq; rfl
        · exact h3 p hmem
      · intro hnil; cases hnil

/-- When every group id is already stored, the scan is a no-op. -/
theorem scanGroups_skip_all (dir : List FSFile) (un : String) (uid : Nat) :
    ∀ (gs : List (String × List String)) (s : Store),
      (∀ g ∈ gs, (s.posts.any fun p => p.id == g.1) = true) →
      scanGroups dir un uid gs s = (s, 0) := by
  intro gs
  induction gs with
  | nil => intro s _; rfl
  | cons g rest ih =>
    intro s hall
    obtain ⟨tid, files⟩ := g
    rw [scanGroups, if_pos (hall (tid, files) (List.mem_cons_self _ _))]
    exact ih s (fun g₁ hg₁ => hall g₁ (List.mem_cons_of_mem _ hg₁))

/-- Running the non-forced sync body twice in a row over an unchanged
directory always reports `(0, 0)` the second time. -/
theorem syncDir_syncDir_zero (dir : List FSFile) (s : Store) (hdl : String) :
    (syncDir dir (syncDir dir s hdl false).1 hdl false).2 = (0, 0) := by
  obtain ⟨hposts_fo, hfind_fo⟩ := findOrCreateUser_spec s hdl
  rw [userByName] at hfind_fo
  rw [syncDir_false_eq dir s hdl]
  set j := selectUserJson dir hdl with hj
  set u₀ := (findOrCreateUser s hdl).1 with hu₀
  set s₁ := (findOrCreateUser s hdl).2 with hs₁
  set s₂ := refreshProfile s₁ j u₀.id with hs₂
  have hfind₂ : s₂.users.find? (fun x => x.username == hdl) = some (applyUserJson j u₀) := by
    rw [hs₂, refreshProfile]
    exact find?_refresh_users j _ hdl u₀ hfind_fo
  have hfo₂ : findOrCreateUser s₂ hdl = (applyUserJson j u₀, s₂) := by
    rw [findOrCreateUser, hfind₂]
  have hid₁ : (applyUserJson j u₀).id = u₀.id := applyUserJson_id j u₀
  by_cases hpop : (s₂.posts.any fun p => p.user_id == u₀.id) = true
  · rw [if_pos hpop]
    rw [syncDir_false_eq dir s₂ hdl, ← hj]
    simp only [hfo₂, hid₁]
    rw [if_pos (by rw [refreshProfile_posts]; exact hpop)]
  · rw [if_neg hpop]
    rw [Bool.not_eq_true] at hpop
    obtain ⟨new, hnew1, hnew2, hnew3, hnew4⟩ :=
      scanGroups_decomp dir hdl u₀.id (groupFiles dir) s₂
    set s₃ := (scanGroups dir hdl u₀.id (groupFiles dir) s₂).1 with hs₃
    have husers₃ : s₃.users = s₂.users := scanGroups_users dir hdl u₀.id (groupFiles dir) s₂
    have hfind₃ : s₃.users.find? (fun x => x.username == hdl)
        = some (applyUserJson j u₀) := by
      rw [husers₃]; exact hfind₂
    have hfo₃ : findOrCreateUser s₃ hdl = (applyUserJson j u₀, s₃) := by
      rw [findOrCreateUser, hfind₃]
    show (syncDir dir s₃ hdl false).2 = (0, 0)
    rw [syncDir_false_eq dir s₃ hdl, ← hj]
    simp only [hfo₃, hid₁]
    cases hnil : new with
    | nil =>
      rw [hnil, List.append_nil] at hnew1
      have hcond : ((refreshProfile s₃ j u₀.id).posts.any
          fun p => p.user_id == u₀.id) = false := by
        rw [refreshProfile_posts, hnew1]
        exact hpop
      rw [if_neg (by rw [hcond]; exact Bool.false_ne_true)]
      have hall : ∀ g ∈ groupFiles dir,
          (((refreshProfile s₃ j u₀.id).posts).any fun p => p.id == g.1) = true := by
        intro g hg
        rw [refreshProfile_posts, hnew1]
        exact hnew4 hnil g hg
      rw [scanGroups_skip_all dir hdl u₀.id (groupFiles dir) _ hall]
    | cons p ps =>
      have hpmem : p ∈ new := by rw [hnil]; exact List.mem_cons_self _ _
      have hcond : ((refreshProfile s₃ j u₀.id).posts.any
          fun q => q.user_id == u₀.id) = true := by
        rw [refreshProfile_posts, hnew1]
        refine List.any_eq_true.mpr ⟨p, List.mem_append_right _ hpmem, ?_⟩
        rw [hnew3 p hpmem]
        simp
      rw [if_pos hcond]

/-- **C1.** Incremental sync is idempotent: an immediately repeated
`sync(h, false)` over an unchanged filesystem returns `(0, 0)`; and
whenever the author row exists with at least one stored post, a
non-forced sync performs only the profile refresh — it returns `(0, 0)`
and the resulting store is exactly the profile-refreshed one, with the
posts untouched. -/
theorem claim_C1 (fs : FS) (s : Store) (hdl : String) :
    (sync fs (sync fs s hdl false).1 hdl false).2 = (0, 0) ∧
    (∀ (dir : List FSFile) (u : StoreUser), dirOf fs hdl = some dir →
      userByName s hdl = some u →
      (s.posts.any fun p => p.user_id == u.id) = true →
      sync fs s hdl false = (refreshProfile s (selectUserJson dir hdl) u.id, (0, 0))) := by
  constructor
  · cases hdir : dirOf fs hdl with
    | none => simp [sync, hdir]
    | some dir =>
      simp only [sync, hdir]
      exact syncDir_syncDir_zero dir s hdl
  · intro dir u hdir hfind hpop
    rw [userByName] at hfind
    have hfo : findOrCreateUser s hdl = (u, s) := by rw [findOrCreateUser, hfind]
    simp only [sync, hdir]
    rw [syncDir_false_eq dir s hdl]
    simp only [hfo]
    rw [if_pos (by rw [refreshProfile_posts]; exact hpop)]


/-- Witness for C1: over alice's unchanged directory, the repeated sync
reports `(0, 0)`, and a single sync on the populated store is exactly the
profile refresh with result `(0, 0)`. -/
theorem claim_C1_witness :
    (sync [("alice", c1Dir)] (sync [("alice", c1Dir)] c1Store "alice" false).1
      "alice" false).2 = (0, 0) ∧
    sync [("alice", c1Dir)] c1Store "alice" false
      = (refreshProfile c1Store (selectUserJson c1Dir "alice")
          ({ id := 1, username := "alice" } : StoreUser).id, (0, 0)) := by
  have hh := claim_C1 [("alice", c1Dir)] c1Store "alice"
  exact ⟨hh.1, hh.2 c1Dir { id := 1, username := "alice" } rfl (by decide) (by decide)⟩

end GalleryWebui
